import Mathlib

/-!
Shallow embedding of `src/Assignment5.py` (class `TallySheet`) and proofs of
the specification claims about it.

Modelling decisions:
* Python exceptions become `Except PyError`; a raised exception aborts the call
  and, in the run semantics (`runOps`), leaves the sheet unchanged (the Python
  caller catches the exception and the object was not mutated).
* The Python `dict` is an insertion-ordered association list with unique keys;
  `dict` iteration order is insertion order, which the stable `sorted` in
  `itemsSortedByCount` can observe.
* Dynamically typed arguments (`category`, the `title`s, and `addCategory`'s
  `amount`, which has an `isinstance(amount, int)` check) are a `PyVal`
  (int-or-string); the amounts of `setTally`/`increment`/`decrement` are plain
  integers, matching the integer counts the class is specified over.
* Error messages carried by the Python exceptions are elided: only the
  exception class (`TypeError`/`ValueError`/`KeyError`) is observable here.
-/

namespace Assignment5

/-- A dynamically typed Python value, restricted to the two types the program
uses for its arguments: integers and strings. -/
inductive PyVal where
  | int (n : Int)
  | str (s : String)
deriving DecidableEq, Repr

/-- Python `str(v)`: the decimal representation of an integer, a string itself. -/
def pyStr : PyVal → String
  | .int n => toString n
  | .str s => s

/-- The exception classes raised by `Assignment5.py`: `TypeError`,
`ValueError` and `KeyError` (messages elided). -/
inductive PyError where
  | typeError
  | valueError
  | keyError
deriving DecidableEq, Repr

/-- The state of a `TallySheet` object.
`title` models the attribute `self._title` set by `__init__` and read by
`getTitle`; `titleAttr` models the distinct attribute `self.title` that
`setTitle` assigns (absent until `setTitle` first succeeds); `categories`
models the insertion-ordered dict `self._categories`. -/
structure TallySheet where
  title : String
  titleAttr : Option String
  categories : List (String × Int)
deriving DecidableEq, Repr

/-- Dict lookup `m[k]` as an option: the value at the first matching key. -/
def lookupKey (m : List (String × Int)) (k : String) : Option Int :=
  match m with
  | [] => none
  | p :: rest => if p.1 = k then some p.2 else lookupKey rest k

/-- Dict assignment `m[k] = v` for a key already present: replace the value at
the first occurrence of `k`, keeping the key in place. -/
def setVal (m : List (String × Int)) (k : String) (v : Int) : List (String × Int) :=
  match m with
  | [] => []
  | p :: rest => if p.1 = k then (k, v) :: rest else p :: setVal rest k v

/-- Dict deletion `del m[k]`: remove the (unique) entry keyed `k`. -/
def delVal (m : List (String × Int)) (k : String) : List (String × Int) :=
  match m with
  | [] => []
  | p :: rest => if p.1 = k then rest else p :: delVal rest k

/-- `TallySheet.__init__(title)`: `TypeError` unless `title` is a string,
otherwise an empty sheet carrying the title.  (The source's default argument
is the string literal given in `emptySheet` below.) -/
def create (title : PyVal) : Except PyError TallySheet :=
  match title with
  | .str t => .ok ⟨t, none, []⟩
  | .int _ => .error .typeError

/-- The sheet produced by `TallySheet()` with the default title. -/
def emptySheet : TallySheet :=
  ⟨"Tally Sheet", none, []⟩

/-- `getTitle`: returns `self._title`. -/
def getTitle (s : TallySheet) : String :=
  s.title

/-- `setTitle(newTitle)`: `TypeError` unless `newTitle` is a string; otherwise
assigns `self.title = newTitle` — note: the attribute `title`, not the
attribute `_title` that `getTitle` reads. -/
def setTitle (s : TallySheet) (newTitle : PyVal) : Except PyError TallySheet :=
  match newTitle with
  | .str t => .ok { s with titleAttr := some t }
  | .int _ => .error .typeError

/-- `addCategory(category, amount)` (`amount` defaults to `int 0` in the
source): normalizes the key with `str`, `TypeError` unless `amount` is an
integer, `ValueError` if it is negative; then `+= amount` on an existing key,
or a fresh entry `category : amount` (appended, Python dicts keep insertion
order). -/
def addCategory (s : TallySheet) (category : PyVal) (amount : PyVal) :
    Except PyError TallySheet :=
  let c := pyStr category
  match amount with
  | .str _ => .error .typeError
  | .int a =>
    if a < 0 then .error .valueError
    else
      match lookupKey s.categories c with
      | some v => .ok { s with categories := setVal s.categories c (v + a) }
      | none => .ok { s with categories := s.categories ++ [(c, a)] }

/-- `removeCategory(category)`: normalizes the key; deletes it if present,
otherwise `KeyError`. -/
def removeCategory (s : TallySheet) (category : PyVal) : Except PyError TallySheet :=
  let c := pyStr category
  match lookupKey s.categories c with
  | some _ => .ok { s with categories := delVal s.categories c }
  | none => .error .keyError

/-- `getTally(category)`: normalizes the key; returns its count, or `KeyError`
if absent. -/
def getTally (s : TallySheet) (category : PyVal) : Except PyError Int :=
  let c := pyStr category
  match lookupKey s.categories c with
  | some v => .ok v
  | none => .error .keyError

/-- `setTally(category, amount)`: normalizes the key; `ValueError` if
`amount < 0`; overwrites the count of an existing key, `KeyError` otherwise. -/
def setTally (s : TallySheet) (category : PyVal) (amount : Int) :
    Except PyError TallySheet :=
  let c := pyStr category
  if amount < 0 then .error .valueError
  else
    match lookupKey s.categories c with
    | some _ => .ok { s with categories := setVal s.categories c amount }
    | none => .error .keyError

/-- `increment(category, amount)` (`amount` defaults to 1 in the source):
normalizes the key; `ValueError` if `amount < 0`; `+= amount` on an existing
key, `KeyError` otherwise. -/
def increment (s : TallySheet) (category : PyVal) (amount : Int) :
    Except PyError TallySheet :=
  let c := pyStr category
  if amount < 0 then .error .valueError
  else
    match lookupKey s.categories c with
    | some v => .ok { s with categories := setVal s.categories c (v + amount) }
    | none => .error .keyError

/-- `decrement(category, amount)` (`amount` defaults to 1 in the source):
normalizes the key; `ValueError` if `amount < 0`; on an existing key,
`ValueError` if `amount` exceeds the current count, else `-= amount`;
`KeyError` on an absent key. -/
def decrement (s : TallySheet) (category : PyVal) (amount : Int) :
    Except PyError TallySheet :=
  let c := pyStr category
  if amount < 0 then .error .valueError
  else
    match lookupKey s.categories c with
    | some v =>
      if amount > v then .error .valueError
      else .ok { s with categories := setVal s.categories c (v - amount) }
    | none => .error .keyError

/-- `zeroAll()`: `for key in self._categories.keys(): self.setTally(key, 0)` —
folds `setTally key 0` over the keys of the current mapping. -/
def zeroAll (s : TallySheet) : Except PyError TallySheet :=
  (s.categories.map Prod.fst).foldlM (fun st k => setTally st (.str k) 0) s

/-- One call on a `TallySheet`'s mutating interface. -/
inductive Op where
  | addCategory (category : PyVal) (amount : PyVal)
  | removeCategory (category : PyVal)
  | setTally (category : PyVal) (amount : Int)
  | increment (category : PyVal) (amount : Int)
  | decrement (category : PyVal) (amount : Int)
  | zeroAll
deriving DecidableEq, Repr

/-- Dispatch one operation on the sheet. -/
def applyOp (s : TallySheet) : Op → Except PyError TallySheet
  | .addCategory c a => addCategory s c a
  | .removeCategory c => removeCategory s c
  | .setTally c a => setTally s c a
  | .increment c a => increment s c a
  | .decrement c a => decrement s c a
  | .zeroAll => zeroAll s

/-- Run a sequence of operations: a call that raises leaves the sheet exactly
as it was (the exception propagates to the caller before any mutation). -/
def runOps (s : TallySheet) (ops : List Op) : TallySheet :=
  ops.foldl (fun st op => match applyOp st op with | .ok st2 => st2 | .error _ => st) s

/-- The per-line format `"%-30s %d\n"`: the category left-justified in a
30-character field (no truncation), a space, the decimal count, a newline. -/
def formatLine (category : String) (count : Int) : String :=
  category.pushn ' ' (30 - category.length) ++ " " ++ toString count ++ "\n"

/-- The `resultStr` accumulation loop shared by the renderers: append one
formatted line per pair. -/
def renderPairs (l : List (String × Int)) : String :=
  l.foldl (fun acc p => acc ++ formatLine p.1 p.2) ""

/-- Insert `x` into `l` before the first element `y` with `le x y`: the
insertion step of a stable insertion sort. -/
def insertSorted (le : α → α → Bool) (x : α) : List α → List α
  | [] => [x]
  | y :: ys => if le x y then x :: y :: ys else y :: insertSorted le x ys

/-- Stable insertion sort, modelling Python's built-in `sorted` (which is a
stable sort): elements that compare equal keep their relative order. -/
def sortBy (le : α → α → Bool) : List α → List α
  | [] => []
  | x :: xs => insertSorted le x (sortBy le xs)

/-- Lexicographic comparison of character lists by code point, the order
Python's `sorted` uses on the string keys. -/
def charsLE : List Char → List Char → Bool
  | [], _ => true
  | _ :: _, [] => false
  | c :: cs, d :: ds =>
    if c.toNat < d.toNat then true
    else if d.toNat < c.toNat then false
    else charsLE cs ds

/-- `a <= b` on Python strings: lexicographic by code point. -/
def strLE (a b : String) : Bool :=
  charsLE a.data b.data

/-- Comparison used by `sorted(self._categories.items(), key=lambda item: item[1])`:
order pairs by their count alone (the category is not compared). -/
def countLE (a b : String × Int) : Bool :=
  a.2 ≤ b.2

/-- The pairs listed by `itemsSortedByCategory`: keys sorted lexicographically
(Python's `sorted` on strings), each with its count.  `lookupKey … |>.getD 0`
models the subscript `self._categories[category]`; the default is never hit
because every key comes from the mapping itself. -/
def byCategoryPairs (s : TallySheet) : List (String × Int) :=
  (sortBy strLE (s.categories.map Prod.fst)).map
    (fun c => (c, (lookupKey s.categories c).getD 0))

/-- `itemsSortedByCategory()`: lines for all categories, sorted by name. -/
def itemsSortedByCategory (s : TallySheet) : String :=
  renderPairs (byCategoryPairs s)

/-- The pairs listed by `itemsSortedByCount`: the items stably sorted by
count. -/
def byCountPairs (s : TallySheet) : List (String × Int) :=
  sortBy countLE s.categories

/-- `itemsSortedByCount()`: lines for all categories, stably sorted by count. -/
def itemsSortedByCount (s : TallySheet) : String :=
  renderPairs (byCountPairs s)

/-- The data-model invariant: every stored count is non-negative. -/
def NonNeg (s : TallySheet) : Prop :=
  ∀ p ∈ s.categories, 0 ≤ p.2

/-! ### Association-list lemmas -/

theorem lookupKey_mem {m : List (String × Int)} {k : String} {v : Int}
    (h : lookupKey m k = some v) : (k, v) ∈ m := by
  induction m with
  | nil => simp [lookupKey] at h
  | cons q rest ih =>
    rw [lookupKey] at h
    by_cases hq : q.1 = k
    · rw [if_pos hq] at h
      injection h with h
      subst hq
      subst h
      simp
    · rw [if_neg hq] at h
      exact List.mem_cons_of_mem _ (ih h)

theorem mem_setVal {m : List (String × Int)} {k : String} {v : Int}
    {p : String × Int} (h : p ∈ setVal m k v) : p ∈ m ∨ p = (k, v) := by
  induction m with
  | nil => simp [setVal] at h
  | cons q rest ih =>
    rw [setVal] at h
    by_cases hq : q.1 = k
    · rw [if_pos hq] at h
      rcases List.mem_cons.mp h with rfl | h
      · right; rfl
      · left; exact List.mem_cons_of_mem _ h
    · rw [if_neg hq] at h
      rcases List.mem_cons.mp h with rfl | h
      · left; exact List.mem_cons_self _ _
      · rcases ih h with h | h
        · left; exact List.mem_cons_of_mem _ h
        · right; exact h

theorem mem_delVal {m : List (String × Int)} {k : String}
    {p : String × Int} (h : p ∈ delVal m k) : p ∈ m := by
  induction m with
  | nil => simp [delVal] at h
  | cons q rest ih =>
    rw [delVal] at h
    by_cases hq : q.1 = k
    · rw [if_pos hq] at h
      exact List.mem_cons_of_mem _ h
    · rw [if_neg hq] at h
      rcases List.mem_cons.mp h with rfl | h
      · exact List.mem_cons_self _ _
      · exact List.mem_cons_of_mem _ (ih h)

theorem lookupKey_setVal_self {m : List (String × Int)} {k : String} {v : Int}
    (h : lookupKey m k = some v) (w : Int) :
    lookupKey (setVal m k w) k = some w := by
  induction m with
  | nil => simp [lookupKey] at h
  | cons q rest ih =>
    rw [lookupKey] at h
    rw [setVal]
    by_cases hq : q.1 = k
    · rw [if_pos hq, lookupKey, if_pos rfl]
    · rw [if_neg hq] at h
      rw [if_neg hq, lookupKey, if_neg hq]
      exact ih h

theorem lookupKey_setVal_ne {m : List (String × Int)} {k k' : String} (v : Int)
    (hne : k' ≠ k) : lookupKey (setVal m k v) k' = lookupKey m k' := by
  induction m with
  | nil => simp [setVal]
  | cons q rest ih =>
    rw [setVal]
    by_cases hq : q.1 = k
    · rw [if_pos hq, lookupKey, lookupKey, hq]
      rw [if_neg (fun hh => hne hh.symm), if_neg (fun hh => hne hh.symm)]
    · rw [if_neg hq, lookupKey, lookupKey]
      by_cases hk : q.1 = k'
      · rw [if_pos hk, if_pos hk]
      · rw [if_neg hk, if_neg hk]
        exact ih

theorem keys_setVal (m : List (String × Int)) (k : String) (v : Int) :
    (setVal m k v).map Prod.fst = m.map Prod.fst := by
  induction m with
  | nil => rfl
  | cons q rest ih =>
    rw [setVal]
    by_cases hq : q.1 = k
    · rw [if_pos hq]
      simp [hq]
    · rw [if_neg hq]
      simp [ih]

theorem isSome_lookupKey_iff {m : List (String × Int)} {k' : String} :
    (lookupKey m k').isSome = true ↔ k' ∈ m.map Prod.fst := by
  induction m with
  | nil => simp [lookupKey]
  | cons q rest ih =>
    rw [lookupKey]
    by_cases hq : q.1 = k'
    · simp [if_pos hq, hq]
    · simp [if_neg hq, ih, Ne.symm hq]

theorem setVal_setVal (m : List (String × Int)) (k : String) (v w : Int) :
    setVal (setVal m k v) k w = setVal m k w := by
  induction m with
  | nil => simp [setVal]
  | cons q rest ih =>
    rw [setVal]
    by_cases hq : q.1 = k
    · rw [if_pos hq, setVal, if_pos rfl, setVal, if_pos hq]
    · rw [if_neg hq, setVal, if_neg hq, setVal, if_neg hq, ih]

theorem setVal_lookup_self {m : List (String × Int)} {k : String} {v : Int}
    (h : lookupKey m k = some v) : setVal m k v = m := by
  induction m with
  | nil => simp [lookupKey] at h
  | cons q rest ih =>
    rw [lookupKey] at h
    rw [setVal]
    by_cases hq : q.1 = k
    · rw [if_pos hq] at h ⊢
      injection h with h
      rw [← hq, ← h]
    · rw [if_neg hq] at h ⊢
      rw [ih h]

theorem lookupKey_append_none {m : List (String × Int)} {k : String}
    (h : lookupKey m k = none) (a : Int) :
    lookupKey (m ++ [(k, a)]) k = some a := by
  induction m with
  | nil => simp [lookupKey]
  | cons q rest ih =>
    rw [lookupKey] at h
    by_cases hq : q.1 = k
    · rw [if_pos hq] at h
      exact absurd h (by simp)
    · rw [if_neg hq] at h
      rw [List.cons_append, lookupKey, if_neg hq]
      exact ih h

/-! ### Sorting lemmas -/

theorem mem_insertSorted (le : α → α → Bool) (x z : α) :
    ∀ l : List α, z ∈ insertSorted le x l ↔ z = x ∨ z ∈ l := by
  intro l
  induction l with
  | nil => simp [insertSorted]
  | cons y ys ih =>
    rw [insertSorted]
    by_cases hxy : le x y = true
    · rw [if_pos hxy]
      simp
    · rw [if_neg hxy]
      simp only [List.mem_cons, ih]
      tauto

theorem pairwise_insertSorted (le : α → α → Bool)
    (htrans : ∀ a b c, le a b = true → le b c = true → le a c = true)
    (htot : ∀ a b, le a b = true ∨ le b a = true)
    (x : α) {l : List α} (h : l.Pairwise (fun a b => le a b = true)) :
    (insertSorted le x l).Pairwise (fun a b => le a b = true) := by
  induction l with
  | nil => simp [insertSorted]
  | cons y ys ih =>
    rw [List.pairwise_cons] at h
    obtain ⟨hy, hys⟩ := h
    rw [insertSorted]
    by_cases hxy : le x y = true
    · rw [if_pos hxy]
      refine List.Pairwise.cons ?_ (List.Pairwise.cons hy hys)
      intro z hz
      rcases List.mem_cons.mp hz with rfl | hz
      · exact hxy
      · exact htrans x y z hxy (hy z hz)
    · rw [if_neg hxy]
      refine List.Pairwise.cons ?_ (ih hys)
      intro z hz
      rcases (mem_insertSorted le x z ys).mp hz with hzx | hz
      · rcases htot x y with h1 | h1
        · exact absurd h1 hxy
        · rw [hzx]
          exact h1
      · exact hy z hz

theorem pairwise_sortBy (le : α → α → Bool)
    (htrans : ∀ a b c, le a b = true → le b c = true → le a c = true)
    (htot : ∀ a b, le a b = true ∨ le b a = true) :
    ∀ l : List α, (sortBy le l).Pairwise (fun a b => le a b = true) := by
  intro l
  induction l with
  | nil => simp [sortBy]
  | cons x xs ih =>
    rw [sortBy]
    exact pairwise_insertSorted le htrans htot x ih

theorem filter_insertSorted_pos (le : α → α → Bool) (p : α → Bool) {x : α}
    (hp : p x = true) (hcomp : ∀ y, p y = true → le x y = true) :
    ∀ l : List α, (insertSorted le x l).filter p = x :: l.filter p := by
  intro l
  induction l with
  | nil => simp [insertSorted, hp]
  | cons y ys ih =>
    rw [insertSorted]
    by_cases hxy : le x y = true
    · rw [if_pos hxy]
      simp [List.filter_cons, hp]
    · rw [if_neg hxy]
      have hpy : p y = false := by
        cases hy : p y
        · rfl
        · exact absurd (hcomp y hy) hxy
      rw [List.filter_cons_of_neg (by simp [hpy]), ih,
        List.filter_cons_of_neg (by simp [hpy])]

theorem filter_insertSorted_neg (le : α → α → Bool) (p : α → Bool) {x : α}
    (hp : p x = false) :
    ∀ l : List α, (insertSorted le x l).filter p = l.filter p := by
  intro l
  induction l with
  | nil => simp [insertSorted, hp]
  | cons y ys ih =>
    rw [insertSorted]
    by_cases hxy : le x y = true
    · rw [if_pos hxy]
      simp [List.filter_cons, hp]
    · rw [if_neg hxy]
      rw [List.filter_cons, List.filter_cons, ih]

theorem filter_sortBy (le : α → α → Bool) (p : α → Bool)
    (hcomp : ∀ x y, p x = true → p y = true → le x y = true) :
    ∀ l : List α, (sortBy le l).filter p = l.filter p := by
  intro l
  induction l with
  | nil => rfl
  | cons x xs ih =>
    rw [sortBy]
    cases hpx : p x
    · rw [filter_insertSorted_neg le p hpx, ih, List.filter_cons_of_neg (by simp [hpx])]
    · rw [filter_insertSorted_pos le p hpx (fun y hy => hcomp x y hpx hy), ih,
        List.filter_cons_of_pos (by simp [hpx])]

theorem charsLE_total : ∀ a b, charsLE a b = true ∨ charsLE b a = true := by
  intro a
  induction a with
  | nil =>
    intro b
    left
    cases b <;> rfl
  | cons c cs ih =>
    intro b
    cases b with
    | nil =>
      right
      rfl
    | cons d ds =>
      rcases Nat.lt_trichotomy c.toNat d.toNat with h | h | h
      · left
        simp [charsLE, h]
      · rcases ih ds with h2 | h2
        · left
          simp [charsLE, h, h2]
        · right
          simp [charsLE, h.symm, h2]
      · right
        simp [charsLE, h]

theorem charsLE_trans : ∀ a b c, charsLE a b = true → charsLE b c = true →
    charsLE a c = true := by
  intro a
  induction a with
  | nil =>
    intro b c _ _
    cases c <;> rfl
  | cons x xs ih =>
    intro b c hab hbc
    match b, c with
    | [], _ => simp [charsLE] at hab
    | y :: ys, [] => simp [charsLE] at hbc
    | y :: ys, z :: zs =>
      simp only [charsLE] at hab hbc ⊢
      by_cases h1 : x.toNat < y.toNat <;> by_cases h2 : y.toNat < x.toNat <;>
        by_cases h3 : y.toNat < z.toNat <;> by_cases h4 : z.toNat < y.toNat <;>
        by_cases h5 : x.toNat < z.toNat <;> by_cases h6 : z.toNat < x.toNat <;>
        simp only [h1, h2, h3, h4, h5, h6, if_true, if_false, if_pos, if_neg,
          ite_true, ite_false] at hab hbc ⊢ <;>
        first
          | rfl
          | trivial
          | omega
          | exact ih ys zs hab hbc

theorem strLE_total (a b : String) : strLE a b = true ∨ strLE b a = true :=
  charsLE_total a.data b.data

theorem strLE_trans (a b c : String) (h1 : strLE a b = true) (h2 : strLE b c = true) :
    strLE a c = true :=
  charsLE_trans a.data b.data c.data h1 h2

theorem countLE_total (a b : String × Int) : countLE a b = true ∨ countLE b a = true := by
  rw [countLE, countLE]
  rcases le_total a.2 b.2 with h | h
  · left
    exact decide_eq_true h
  · right
    exact decide_eq_true h

theorem countLE_trans (a b c : String × Int) (h1 : countLE a b = true)
    (h2 : countLE b c = true) : countLE a c = true := by
  rw [countLE] at h1 h2 ⊢
  exact decide_eq_true (le_trans (of_decide_eq_true h1) (of_decide_eq_true h2))

theorem renderPairs_eq_join (l : List (String × Int)) :
    renderPairs l = String.join (l.map (fun p => formatLine p.1 p.2)) := by
  simp only [renderPairs, String.join, List.foldl_map]

/-! ### Preservation of the non-negativity invariant -/

theorem except_bind_ok (a : α) (f : α → Except ε β) :
    (Except.ok a >>= f : Except ε β) = f a :=
  rfl

theorem except_bind_error (e : ε) (f : α → Except ε β) :
    ((Except.error e : Except ε α) >>= f : Except ε β) = .error e :=
  rfl

theorem nonneg_setTally {s s' : TallySheet} {c : PyVal} {a : Int}
    (h : NonNeg s) (hok : setTally s c a = .ok s') : NonNeg s' := by
  simp only [setTally] at hok
  split at hok
  · exact absurd hok (by simp)
  next ha =>
    split at hok
    next v hlk =>
      injection hok with hok
      subst hok
      intro p hp
      rcases mem_setVal hp with hm | hm
      · exact h p hm
      · rw [hm]
        exact not_lt.mp ha
    next hlk =>
      exact absurd hok (by simp)

theorem nonneg_increment {s s' : TallySheet} {c : PyVal} {a : Int}
    (h : NonNeg s) (hok : increment s c a = .ok s') : NonNeg s' := by
  simp only [increment] at hok
  split at hok
  · exact absurd hok (by simp)
  next ha =>
    split at hok
    next v hlk =>
      injection hok with hok
      subst hok
      intro p hp
      rcases mem_setVal hp with hm | hm
      · exact h p hm
      · rw [hm]
        have hv : 0 ≤ v := h _ (lookupKey_mem hlk)
        have ha2 : 0 ≤ a := not_lt.mp ha
        simpa using add_nonneg hv ha2
    next hlk =>
      exact absurd hok (by simp)

theorem nonneg_decrement {s s' : TallySheet} {c : PyVal} {a : Int}
    (h : NonNeg s) (hok : decrement s c a = .ok s') : NonNeg s' := by
  simp only [decrement] at hok
  split at hok
  · exact absurd hok (by simp)
  next ha =>
    split at hok
    next v hlk =>
      split at hok
      · exact absurd hok (by simp)
      next hle =>
        injection hok with hok
        subst hok
        intro p hp
        rcases mem_setVal hp with hm | hm
        · exact h p hm
        · rw [hm]
          have : v - a ≥ 0 := by omega
          simpa using this
    next hlk =>
      exact absurd hok (by simp)

theorem nonneg_addCategory {s s' : TallySheet} {c a : PyVal}
    (h : NonNeg s) (hok : addCategory s c a = .ok s') : NonNeg s' := by
  cases a with
  | str t => exact absurd hok (by simp [addCategory])
  | int n =>
    simp only [addCategory] at hok
    split at hok
    · exact absurd hok (by simp)
    next hn =>
      split at hok
      next v hlk =>
        injection hok with hok
        subst hok
        intro p hp
        rcases mem_setVal hp with hm | hm
        · exact h p hm
        · rw [hm]
          have hv : 0 ≤ v := h _ (lookupKey_mem hlk)
          have hn2 : 0 ≤ n := not_lt.mp hn
          simpa using add_nonneg hv hn2
      next hlk =>
        injection hok with hok
        subst hok
        intro p hp
        rcases List.mem_append.mp hp with hm | hm
        · exact h p hm
        · have : p = (pyStr c, n) := by simpa using hm
          rw [this]
          exact not_lt.mp hn

theorem nonneg_removeCategory {s s' : TallySheet} {c : PyVal}
    (h : NonNeg s) (hok : removeCategory s c = .ok s') : NonNeg s' := by
  simp only [removeCategory] at hok
  split at hok
  next v hlk =>
    injection hok with hok
    subst hok
    intro p hp
    exact h p (mem_delVal hp)
  next hlk =>
    exact absurd hok (by simp)

theorem nonneg_foldSetTallyZero : ∀ (ks : List String) (s : TallySheet), NonNeg s →
    ∀ s', ks.foldlM (fun st k => setTally st (.str k) 0) s = .ok s' → NonNeg s' := by
  intro ks
  induction ks with
  | nil =>
    intro s h s' hok
    simp only [List.foldlM] at hok
    injection hok with hok
    subst hok
    exact h
  | cons k ks ih =>
    intro s h s' hok
    simp only [List.foldlM] at hok
    cases hst : setTally s (.str k) 0 with
    | error e =>
      rw [hst, except_bind_error] at hok
      exact absurd hok (by simp)
    | ok s1 =>
      rw [hst, except_bind_ok] at hok
      exact ih s1 (nonneg_setTally h hst) s' hok

theorem nonneg_zeroAll {s s' : TallySheet} (h : NonNeg s)
    (hok : zeroAll s = .ok s') : NonNeg s' := by
  simp only [zeroAll] at hok
  exact nonneg_foldSetTallyZero _ s h s' hok

theorem nonneg_applyOp {s s' : TallySheet} {op : Op}
    (h : NonNeg s) (hok : applyOp s op = .ok s') : NonNeg s' := by
  cases op with
  | addCategory c a => exact nonneg_addCategory h hok
  | removeCategory c => exact nonneg_removeCategory h hok
  | setTally c a => exact nonneg_setTally h hok
  | increment c a => exact nonneg_increment h hok
  | decrement c a => exact nonneg_decrement h hok
  | zeroAll => exact nonneg_zeroAll h hok

theorem nonneg_runOps (ops : List Op) : ∀ s : TallySheet, NonNeg s →
    NonNeg (runOps s ops) := by
  induction ops with
  | nil =>
    intro s h
    exact h
  | cons op ops ih =>
    intro s h
    have hstep : runOps s (op :: ops) =
        runOps (match applyOp s op with | .ok s2 => s2 | .error _ => s) ops := rfl
    rw [hstep]
    cases hap : applyOp s op with
    | ok s2 =>
      simp only [hap]
      exact ih s2 (nonneg_applyOp h hap)
    | error e =>
      simp only [hap]
      exact ih s h

/-! ### zeroAll computes the zeroed mapping -/

theorem foldlM_setTallyZero_eq : ∀ (ks : List String) (t : String) (ta : Option String)
    (m : List (String × Int)), (∀ k ∈ ks, k ∈ m.map Prod.fst) →
    ks.foldlM (fun st k => setTally st (.str k) 0) ⟨t, ta, m⟩ =
      .ok ⟨t, ta, ks.foldl (fun acc k => setVal acc k 0) m⟩ := by
  intro ks
  induction ks with
  | nil =>
    intro t ta m _
    rfl
  | cons k ks ih =>
    intro t ta m h
    have hk : k ∈ m.map Prod.fst := h k (List.mem_cons_self _ _)
    have hsome : (lookupKey m k).isSome = true := isSome_lookupKey_iff.mpr hk
    obtain ⟨v, hv⟩ := Option.isSome_iff_exists.mp hsome
    have hst : setTally ⟨t, ta, m⟩ (.str k) 0 = .ok ⟨t, ta, setVal m k 0⟩ := by
      simp only [setTally, pyStr]
      rw [if_neg (by omega), hv]
    simp only [List.foldlM]
    rw [hst, except_bind_ok, List.foldl]
    have hsub : ∀ k' ∈ ks, k' ∈ (setVal m k 0).map Prod.fst := by
      intro k' hk'
      rw [keys_setVal]
      exact h k' (List.mem_cons_of_mem _ hk')
    exact ih t ta (setVal m k 0) hsub

theorem foldl_setValZero_notmem : ∀ (ks : List String) (k : String) (w : Int)
    (rest : List (String × Int)), k ∉ ks →
    ks.foldl (fun acc k' => setVal acc k' 0) ((k, w) :: rest) =
      (k, w) :: ks.foldl (fun acc k' => setVal acc k' 0) rest := by
  intro ks
  induction ks with
  | nil =>
    intro k w rest _
    rfl
  | cons k1 ks ih =>
    intro k w rest h
    have hne : k ≠ k1 := fun hh => h (hh ▸ List.mem_cons_self _ _)
    rw [List.foldl, List.foldl]
    have hsv : setVal ((k, w) :: rest) k1 0 = (k, w) :: setVal rest k1 0 := by
      rw [setVal, if_neg (fun hh => hne hh)]
    rw [hsv]
    exact ih k w (setVal rest k1 0) (fun hh => h (List.mem_cons_of_mem _ hh))

theorem foldl_setValZero_keys : ∀ m : List (String × Int), (m.map Prod.fst).Nodup →
    (m.map Prod.fst).foldl (fun acc k => setVal acc k 0) m =
      m.map (fun p => (p.1, 0)) := by
  intro m
  induction m with
  | nil =>
    intro _
    rfl
  | cons q rest ih =>
    intro h
    have h' : (q.1 :: rest.map Prod.fst).Nodup := h
    obtain ⟨hq, hrest⟩ := List.nodup_cons.mp h'
    rw [List.map, List.foldl]
    have h1 : setVal (q :: rest) q.1 0 = (q.1, 0) :: rest := by
      rw [setVal, if_pos rfl]
    rw [h1]
    rw [foldl_setValZero_notmem _ _ _ _ hq]
    rw [ih hrest]
    rfl

theorem zeroAll_eq {s : TallySheet} (h : (s.categories.map Prod.fst).Nodup) :
    zeroAll s = .ok ⟨s.title, s.titleAttr, s.categories.map (fun p => (p.1, 0))⟩ := by
  obtain ⟨t, ta, m⟩ := s
  simp only [zeroAll]
  rw [foldlM_setTallyZero_eq (m.map Prod.fst) t ta m (fun _ hk => hk)]
  rw [foldl_setValZero_keys m h]

/-! ### Characterizations of the individual operations -/

theorem getTally_eq_ok_iff {s : TallySheet} {c : PyVal} {n : Int} :
    getTally s c = .ok n ↔ lookupKey s.categories (pyStr c) = some n := by
  simp only [getTally]
  cases hlk : lookupKey s.categories (pyStr c) with
  | none => simp
  | some v => simp

theorem getTally_eq_err_iff {s : TallySheet} {c : PyVal} :
    getTally s c = .error .keyError ↔ lookupKey s.categories (pyStr c) = none := by
  simp only [getTally]
  cases hlk : lookupKey s.categories (pyStr c) <;> simp

theorem addCategory_mem {s : TallySheet} {c : PyVal} {a n : Int}
    (ha : ¬ a < 0) (hlk : lookupKey s.categories (pyStr c) = some n) :
    addCategory s c (.int a) =
      .ok { s with categories := setVal s.categories (pyStr c) (n + a) } := by
  simp only [addCategory]
  rw [if_neg ha, hlk]

theorem addCategory_new {s : TallySheet} {c : PyVal} {a : Int}
    (ha : ¬ a < 0) (hlk : lookupKey s.categories (pyStr c) = none) :
    addCategory s c (.int a) =
      .ok { s with categories := s.categories ++ [(pyStr c, a)] } := by
  simp only [addCategory]
  rw [if_neg ha, hlk]

theorem setTally_neg {s : TallySheet} {c : PyVal} {a : Int} (ha : a < 0) :
    setTally s c a = .error .valueError := by
  simp only [setTally]
  rw [if_pos ha]

theorem setTally_missing {s : TallySheet} {c : PyVal} {a : Int}
    (ha : ¬ a < 0) (hlk : lookupKey s.categories (pyStr c) = none) :
    setTally s c a = .error .keyError := by
  simp only [setTally]
  rw [if_neg ha, hlk]

theorem setTally_ok {s : TallySheet} {c : PyVal} {a v : Int}
    (ha : ¬ a < 0) (hlk : lookupKey s.categories (pyStr c) = some v) :
    setTally s c a = .ok { s with categories := setVal s.categories (pyStr c) a } := by
  simp only [setTally]
  rw [if_neg ha, hlk]

theorem increment_neg {s : TallySheet} {c : PyVal} {a : Int} (ha : a < 0) :
    increment s c a = .error .valueError := by
  simp only [increment]
  rw [if_pos ha]

theorem increment_ok {s : TallySheet} {c : PyVal} {a v : Int}
    (ha : ¬ a < 0) (hlk : lookupKey s.categories (pyStr c) = some v) :
    increment s c a =
      .ok { s with categories := setVal s.categories (pyStr c) (v + a) } := by
  simp only [increment]
  rw [if_neg ha, hlk]

theorem decrement_neg {s : TallySheet} {c : PyVal} {a : Int} (ha : a < 0) :
    decrement s c a = .error .valueError := by
  simp only [decrement]
  rw [if_pos ha]

theorem decrement_ok {s : TallySheet} {c : PyVal} {a v : Int}
    (ha : ¬ a < 0) (hlk : lookupKey s.categories (pyStr c) = some v) (hle : ¬ a > v) :
    decrement s c a =
      .ok { s with categories := setVal s.categories (pyStr c) (v - a) } := by
  simp only [decrement]
  rw [if_neg ha]
  simp only [hlk]
  rw [if_neg hle]

theorem decrement_err {s : TallySheet} {c : PyVal} {a v : Int}
    (ha : ¬ a < 0) (hlk : lookupKey s.categories (pyStr c) = some v) (hgt : a > v) :
    decrement s c a = .error .valueError := by
  simp only [decrement]
  rw [if_neg ha]
  simp only [hlk]
  rw [if_pos hgt]

theorem runOps_nil (s : TallySheet) : runOps s [] = s :=
  rfl

theorem runOps_cons (s : TallySheet) (op : Op) (ops : List Op) :
    runOps s (op :: ops) =
      runOps (match applyOp s op with | .ok s2 => s2 | .error _ => s) ops :=
  rfl

theorem runOps_error {s : TallySheet} {op : Op} {e : PyError}
    (h : applyOp s op = .error e) (ops : List Op) :
    runOps s (op :: ops) = runOps s ops := by
  rw [runOps_cons, h]

/-! ### The claims -/

/-- Claim C1: the type check holds (`setTitle` fails with `TypeError` on a
non-string argument), but a successful `setTitle` does NOT replace the title
read by `getTitle`: the source assigns the attribute `title` while `getTitle`
reads `_title`.  Concretely, on a sheet created as `TallySheet("Birds")`,
`setTitle("Birds 2")` succeeds yet `getTitle()` still returns `"Birds"`. -/
theorem setTitle_bug :
    ∃ s0 s1, create (PyVal.str ("Birds")) = .ok s0 ∧
      setTitle s0 (PyVal.str ("Birds 2")) = .ok s1 ∧
      setTitle s0 (PyVal.int 3) = .error .typeError ∧
      getTitle s1 = "Birds" ∧ getTitle s1 ≠ "Birds 2" := by
  refine ⟨⟨"Birds", none, []⟩, ⟨"Birds", some ("Birds 2"), []⟩, rfl, rfl, rfl, rfl, ?_⟩
  decide

/-- Claim C2: for a non-negative integer amount, `addCategory` on an existing
category increases its count by the amount (it does not overwrite), and on a
new category creates it with exactly that count; consequently, on a category
not yet present, `addCategory(c, 0)` then `addCategory(c, amount)` leaves
`getTally(c) == amount`. -/
theorem addCategory_spec (s : TallySheet) (c : PyVal) (a : Int) (ha : 0 ≤ a) :
    (∀ n, getTally s c = .ok n →
      ∃ s', addCategory s c (.int a) = .ok s' ∧ getTally s' c = .ok (n + a)) ∧
    (getTally s c = .error .keyError →
      ∃ s', addCategory s c (.int a) = .ok s' ∧ getTally s' c = .ok a) ∧
    (getTally s c = .error .keyError →
      ∃ s1 s2, addCategory s c (.int 0) = .ok s1 ∧
        addCategory s1 c (.int a) = .ok s2 ∧ getTally s2 c = .ok a) := by
  refine ⟨?_, ?_, ?_⟩
  · intro n hn
    have hlk := getTally_eq_ok_iff.mp hn
    refine ⟨_, addCategory_mem (not_lt.mpr ha) hlk, ?_⟩
    rw [getTally_eq_ok_iff]
    exact lookupKey_setVal_self hlk (n + a)
  · intro hn
    have hlk := getTally_eq_err_iff.mp hn
    refine ⟨_, addCategory_new (not_lt.mpr ha) hlk, ?_⟩
    rw [getTally_eq_ok_iff]
    exact lookupKey_append_none hlk a
  · intro hn
    have hlk := getTally_eq_err_iff.mp hn
    have h0 : lookupKey (s.categories ++ [(pyStr c, 0)]) (pyStr c) = some 0 :=
      lookupKey_append_none hlk 0
    refine ⟨_, _, addCategory_new (by omega) hlk,
      addCategory_mem (not_lt.mpr ha) h0, ?_⟩
    rw [getTally_eq_ok_iff]
    have hfin := lookupKey_setVal_self h0 (0 + a)
    simpa using hfin

/-- Claim C3: on an existing category with count `n`, `decrement` with
`0 ≤ k ≤ n` succeeds and leaves count `n - k`; with `k > n` it fails with
`ValueError` and the sheet — hence the count — is unchanged (refusal, not
clamping). -/
theorem decrement_spec (s : TallySheet) (c : PyVal) (n k : Int)
    (hn : getTally s c = .ok n) (hk : 0 ≤ k) :
    (k ≤ n → ∃ s', decrement s c k = .ok s' ∧ getTally s' c = .ok (n - k)) ∧
    (n < k → decrement s c k = .error .valueError ∧
      runOps s [.decrement c k] = s ∧
      getTally (runOps s [.decrement c k]) c = .ok n) := by
  have hlk := getTally_eq_ok_iff.mp hn
  constructor
  · intro hkn
    refine ⟨_, decrement_ok (by omega) hlk (by omega), ?_⟩
    rw [getTally_eq_ok_iff]
    exact lookupKey_setVal_self hlk (n - k)
  · intro hnk
    have herr : decrement s c k = .error .valueError :=
      decrement_err (by omega) hlk (by omega)
    have happ : applyOp s (Op.decrement c k) = .error .valueError := herr
    have hrun : runOps s [Op.decrement c k] = s := by
      rw [runOps_error happ, runOps_nil]
    refine ⟨herr, hrun, ?_⟩
    rw [hrun]
    exact hn

/-- Claim C4: starting from the empty sheet, after any sequence of operations
every stored count is non-negative: no operation can leave a negative count. -/
theorem nonneg_invariant (ops : List Op) :
    ∀ p ∈ (runOps emptySheet ops).categories, 0 ≤ p.2 :=
  nonneg_runOps ops emptySheet (by intro p hp; simp [emptySheet] at hp)

/-- Claim C5: every operation normalizes the caller-supplied key to its string
form before any lookup or insertion — keys with the same string form are
interchangeable in every operation — and `addCategory(5)` followed by
`addCategory("5", 2)` yields exactly the one category `"5"` with count 2. -/
theorem key_normalization (s : TallySheet) (k1 k2 : PyVal) (a : PyVal) (n : Int)
    (h : pyStr k1 = pyStr k2) :
    addCategory s k1 a = addCategory s k2 a ∧
    removeCategory s k1 = removeCategory s k2 ∧
    getTally s k1 = getTally s k2 ∧
    setTally s k1 n = setTally s k2 n ∧
    increment s k1 n = increment s k2 n ∧
    decrement s k1 n = decrement s k2 n ∧
    runOps emptySheet [Op.addCategory (PyVal.int 5) (PyVal.int 0),
      Op.addCategory (PyVal.str ("5")) (PyVal.int 2)] =
      ⟨"Tally Sheet", none, [("5", 2)]⟩ := by
  refine ⟨?_, ?_, ?_, ?_, ?_, ?_, by decide⟩
  · simp only [addCategory, h]
  · simp only [removeCategory, h]
  · simp only [getTally, h]
  · simp only [setTally, h]
  · simp only [increment, h]
  · simp only [decrement, h]

/-- Claim C6: `setTally` fails with `ValueError` on a negative amount, fails
with `KeyError` on an absent category (it never creates one), and otherwise
overwrites the count to exactly the amount. -/
theorem setTally_spec (s : TallySheet) (c : PyVal) (a : Int) :
    (a < 0 → setTally s c a = .error .valueError) ∧
    (0 ≤ a → getTally s c = .error .keyError → setTally s c a = .error .keyError) ∧
    (0 ≤ a → ∀ n, getTally s c = .ok n →
      ∃ s', setTally s c a = .ok s' ∧ getTally s' c = .ok a) := by
  refine ⟨fun ha => setTally_neg ha, ?_, ?_⟩
  · intro ha hn
    exact setTally_missing (not_lt.mpr ha) (getTally_eq_err_iff.mp hn)
  · intro ha n hn
    have hlk := getTally_eq_ok_iff.mp hn
    refine ⟨_, setTally_ok (not_lt.mpr ha) hlk, ?_⟩
    rw [getTally_eq_ok_iff]
    exact lookupKey_setVal_self hlk a

/-- Claim C7: `zeroAll` never fails, keeps the category keys (even their
order) and the title unchanged, and zeroes every count. -/
theorem zeroAll_spec (s : TallySheet) (h : (s.categories.map Prod.fst).Nodup) :
    ∃ s', zeroAll s = .ok s' ∧ s'.title = s.title ∧
      s'.categories.map Prod.fst = s.categories.map Prod.fst ∧
      ∀ p ∈ s'.categories, p.2 = 0 := by
  refine ⟨_, zeroAll_eq h, rfl, ?_, ?_⟩
  · simp
  · intro p hp
    rcases List.mem_map.mp hp with ⟨q, _, rfl⟩
    rfl

/-- Claim C8: `itemsSortedByCategory` lists its lines in non-decreasing
lexicographic (code-point) order of category name; `itemsSortedByCount` lists
its lines in non-decreasing count order, ties keeping the mapping's iteration
order (stable sort on the count only); both are the concatenation of the same
per-pair `formatLine` (left-justified 30-character category, a space, the
decimal count, a newline). -/
theorem items_sorted_spec (s : TallySheet) :
    (byCategoryPairs s).Pairwise (fun p q => strLE p.1 q.1 = true) ∧
    (byCountPairs s).Pairwise (fun p q => p.2 ≤ q.2) ∧
    (∀ c : Int, (byCountPairs s).filter (fun p => p.2 == c) =
      s.categories.filter (fun p => p.2 == c)) ∧
    itemsSortedByCategory s =
      String.join ((byCategoryPairs s).map (fun p => formatLine p.1 p.2)) ∧
    itemsSortedByCount s =
      String.join ((byCountPairs s).map (fun p => formatLine p.1 p.2)) := by
  refine ⟨?_, ?_, ?_, renderPairs_eq_join _, renderPairs_eq_join _⟩
  · simp only [byCategoryPairs]
    rw [List.pairwise_map]
    exact pairwise_sortBy strLE strLE_trans strLE_total _
  · have h := pairwise_sortBy countLE countLE_trans countLE_total s.categories
    simp only [byCountPairs]
    refine h.imp ?_
    intro a b hab
    rw [countLE] at hab
    exact of_decide_eq_true hab
  · intro c
    simp only [byCountPairs]
    apply filter_sortBy
    intro x y hx hy
    have hx2 : x.2 = c := by simpa using hx
    have hy2 : y.2 = c := by simpa using hy
    rw [countLE]
    exact decide_eq_true (by omega)

/-- Claim C9: on an existing category with non-negative count and `k ≥ 0`,
`increment(c, k)` then `decrement(c, k)` both succeed and return the sheet to
exactly its original state: the original count is restored and every other
category is untouched. -/
theorem inc_dec_roundtrip (s : TallySheet) (c : PyVal) (n k : Int)
    (hn : getTally s c = .ok n) (hn0 : 0 ≤ n) (hk : 0 ≤ k) :
    ∃ s1, increment s c k = .ok s1 ∧ decrement s1 c k = .ok s := by
  have hlk := getTally_eq_ok_iff.mp hn
  refine ⟨_, increment_ok (by omega) hlk, ?_⟩
  have hlk1 : lookupKey (setVal s.categories (pyStr c) (n + k)) (pyStr c) =
      some (n + k) := lookupKey_setVal_self hlk (n + k)
  rw [decrement_ok (by omega) hlk1 (by omega)]
  rw [setVal_setVal]
  have h2 : n + k - k = n := by omega
  rw [h2, setVal_lookup_self hlk]

/-- Claim C10: in `increment`, `decrement` and `setTally` the negative-amount
check precedes the key-existence check: on a category absent from the mapping,
a negative amount makes each call fail with `ValueError` (not `KeyError`) and
leaves the sheet unchanged. -/
theorem negative_check_precedence (s : TallySheet) (c : PyVal) (a : Int)
    (_habs : lookupKey s.categories (pyStr c) = none) (ha : a < 0) :
    increment s c a = .error .valueError ∧
    decrement s c a = .error .valueError ∧
    setTally s c a = .error .valueError ∧
    runOps s [.increment c a, .decrement c a, .setTally c a] = s := by
  have h1 : applyOp s (Op.increment c a) = .error .valueError := increment_neg ha
  have h2 : applyOp s (Op.decrement c a) = .error .valueError := decrement_neg ha
  have h3 : applyOp s (Op.setTally c a) = .error .valueError := setTally_neg ha
  refine ⟨increment_neg ha, decrement_neg ha, setTally_neg ha, ?_⟩
  rw [runOps_error h1, runOps_error h2, runOps_error h3, runOps_nil]

/-! ### Witnesses instantiating the hypotheses of the claim theorems -/

theorem addCategory_spec_witness :
    (0 : Int) ≤ 2 ∧
    (∃ s', addCategory ⟨"T", none, [("a", 3)]⟩ (PyVal.str ("a")) (.int 2) = .ok s' ∧
      getTally s' (PyVal.str ("a")) = .ok (3 + 2)) ∧
    (∃ s1 s2, addCategory ⟨"T", none, [("a", 3)]⟩ (PyVal.str ("b")) (.int 0) = .ok s1 ∧
      addCategory s1 (PyVal.str ("b")) (.int 2) = .ok s2 ∧
      getTally s2 (PyVal.str ("b")) = .ok 2) :=
  ⟨by decide,
    (addCategory_spec ⟨"T", none, [("a", 3)]⟩ (PyVal.str ("a")) 2 (by decide)).1 3 (by rfl),
    (addCategory_spec ⟨"T", none, [("a", 3)]⟩ (PyVal.str ("b")) 2 (by decide)).2.2 (by rfl)⟩

theorem decrement_spec_witness :
    getTally ⟨"T", none, [("cardinal", 3)]⟩ (PyVal.str ("cardinal")) = .ok 3 ∧
    (0 : Int) ≤ 2 ∧ (0 : Int) ≤ 4 ∧
    (∃ s', decrement ⟨"T", none, [("cardinal", 3)]⟩ (PyVal.str ("cardinal")) 2 = .ok s' ∧
      getTally s' (PyVal.str ("cardinal")) = .ok (3 - 2)) ∧
    decrement ⟨"T", none, [("cardinal", 3)]⟩ (PyVal.str ("cardinal")) 4 =
      .error .valueError :=
  ⟨by rfl, by decide, by decide,
    (decrement_spec ⟨"T", none, [("cardinal", 3)]⟩ (PyVal.str ("cardinal")) 3 2
      (by rfl) (by decide)).1 (by decide),
    ((decrement_spec ⟨"T", none, [("cardinal", 3)]⟩ (PyVal.str ("cardinal")) 3 4
      (by rfl) (by decide)).2 (by decide)).1⟩

theorem nonneg_invariant_witness :
    (("a", (3 : Int)) ∈ (runOps emptySheet
      [Op.addCategory (PyVal.str ("a")) (PyVal.int 3)]).categories) ∧
    (0 : Int) ≤ 3 :=
  ⟨by decide, nonneg_invariant [Op.addCategory (PyVal.str ("a")) (PyVal.int 3)]
    ("a", 3) (by decide)⟩

theorem key_normalization_witness :
    pyStr (PyVal.int 5) = pyStr (PyVal.str ("5")) ∧
    getTally ⟨"T", none, [("5", 7)]⟩ (PyVal.int 5) =
      getTally ⟨"T", none, [("5", 7)]⟩ (PyVal.str ("5")) :=
  ⟨by decide, (key_normalization ⟨"T", none, [("5", 7)]⟩ (PyVal.int 5)
    (PyVal.str ("5")) (PyVal.int 0) 0 (by decide)).2.2.1⟩

theorem setTally_spec_witness :
    (-1 : Int) < 0 ∧ (0 : Int) ≤ 5 ∧
    setTally ⟨"T", none, [("a", 3)]⟩ (PyVal.str ("b")) (-1) = .error .valueError ∧
    setTally ⟨"T", none, [("a", 3)]⟩ (PyVal.str ("b")) 5 = .error .keyError ∧
    (∃ s', setTally ⟨"T", none, [("a", 3)]⟩ (PyVal.str ("a")) 5 = .ok s' ∧
      getTally s' (PyVal.str ("a")) = .ok 5) :=
  ⟨by decide, by decide,
    (setTally_spec ⟨"T", none, [("a", 3)]⟩ (PyVal.str ("b")) (-1)).1 (by decide),
    (setTally_spec ⟨"T", none, [("a", 3)]⟩ (PyVal.str ("b")) 5).2.1 (by decide) (by rfl),
    (setTally_spec ⟨"T", none, [("a", 3)]⟩ (PyVal.str ("a")) 5).2.2 (by decide) 3 (by rfl)⟩

theorem zeroAll_spec_witness :
    (((⟨"T", none, [("a", 3), ("b", 1)]⟩ : TallySheet).categories.map Prod.fst).Nodup) ∧
    (∃ s', zeroAll ⟨"T", none, [("a", 3), ("b", 1)]⟩ = .ok s' ∧
      s'.title = (⟨"T", none, [("a", 3), ("b", 1)]⟩ : TallySheet).title ∧
      s'.categories.map Prod.fst =
        (⟨"T", none, [("a", 3), ("b", 1)]⟩ : TallySheet).categories.map Prod.fst ∧
      ∀ p ∈ s'.categories, p.2 = 0) :=
  ⟨by decide, zeroAll_spec ⟨"T", none, [("a", 3), ("b", 1)]⟩ (by decide)⟩

theorem inc_dec_roundtrip_witness :
    getTally ⟨"T", none, [("a", 3)]⟩ (PyVal.str ("a")) = .ok 3 ∧
    (0 : Int) ≤ 3 ∧ (0 : Int) ≤ 2 ∧
    (∃ s1, increment ⟨"T", none, [("a", 3)]⟩ (PyVal.str ("a")) 2 = .ok s1 ∧
      decrement s1 (PyVal.str ("a")) 2 = .ok ⟨"T", none, [("a", 3)]⟩) :=
  ⟨by rfl, by decide, by decide,
    inc_dec_roundtrip ⟨"T", none, [("a", 3)]⟩ (PyVal.str ("a")) 3 2
      (by rfl) (by decide) (by decide)⟩

theorem negative_check_precedence_witness :
    lookupKey (⟨"T", none, [("a", 3)]⟩ : TallySheet).categories
      (pyStr (PyVal.str ("zz"))) = none ∧
    (-2 : Int) < 0 ∧
    (increment ⟨"T", none, [("a", 3)]⟩ (PyVal.str ("zz")) (-2) = .error .valueError ∧
     decrement ⟨"T", none, [("a", 3)]⟩ (PyVal.str ("zz")) (-2) = .error .valueError ∧
     setTally ⟨"T", none, [("a", 3)]⟩ (PyVal.str ("zz")) (-2) = .error .valueError ∧
     runOps ⟨"T", none, [("a", 3)]⟩ [.increment (PyVal.str ("zz")) (-2),
       .decrement (PyVal.str ("zz")) (-2), .setTally (PyVal.str ("zz")) (-2)] =
       ⟨"T", none, [("a", 3)]⟩) :=
  ⟨by rfl, by decide,
    negative_check_precedence ⟨"T", none, [("a", 3)]⟩ (PyVal.str ("zz")) (-2)
      (by rfl) (by decide)⟩

end Assignment5
